import Mathlib

/-
Verification development for the g2basic BASIC interpreter (src/src/g2basic.c).

Modelling conventions, chosen once for the whole file:

* C `double` values are modelled exactly: a value is either a rational
  number (`Qv`, a normalized fraction of an `Int` numerator and a positive
  `Nat` denominator) or the not-a-number sentinel `Val.nan`.  All arithmetic
  the claims exercise (+, -, *, /, comparisons) is exact on rationals, and
  NaN propagates through arithmetic while every ordered comparison and `==`
  involving NaN is false and `!=` is true, as in IEEE 754.  Rounding,
  overflow to infinity and the bit-level representation of doubles are not
  modelled.
* C strings are `List Char` (`Str`); a pointer into a string is the suffix
  it points at, and the terminating `'\0'` is the empty list.  `headChar`
  returns `'\x00'` for the empty suffix, mirroring reading the terminator.
* The interpreter's global variables (`variables_head`, `functions_head`,
  `program_head`, `goto_target`, `for_stack_head`, `gosub_stack_head`,
  `current_line_index`) and the output already sent to the print sink are
  collected in one state record `Interp`, threaded explicitly.
* The output sink (`print_function`) is modelled as an accumulating list of
  emitted items: a PRINT value (`%.*g` with 15 digits), a literal string, a
  LIST line, or one of `run_program`'s two error reports.
* Registered functions are C function pointers; the thirteen built-ins are
  modelled by a tag (`FuncTag`) whose domain guards and argument-count
  checks are translated from the `func_*` wrappers, while the mathematical
  core of the transcendental ones (sin, cos, tan, sqrt, log, log10, exp,
  pow) is a parameter `MathOracle` supplied to every evaluator; no claim
  depends on the value such a function returns.
* Unbounded C loops and the mutually recursive descent are given a `Nat`
  fuel argument, decremented on every call; running out of fuel yields the
  model-only error `Err.outOfFuel`.  Memory-allocation failure branches of
  the C code are not modelled (allocation cannot fail in the model); the
  error messages that only report allocation failure are folded into the
  corresponding parse-failure constructors.
* `strtod` is modelled for the forms the parser can actually reach
  (an unsigned decimal mantissa with optional fraction and exponent);
  hexadecimal, "inf"/"nan" and signed forms are unreachable from
  `parse_factor`, which consumes signs itself and routes identifiers away
  before `parse_number` runs.
-/

/-- Exact rational model of a finite C double: numerator and positive
denominator, kept normalized (gcd 1) by the smart constructor `Qv.norm`. -/
structure Qv where
  num : Int
  den : Nat
deriving DecidableEq, Repr

/-- Normalize a fraction; the denominator is expected positive. -/
def Qv.norm (n : Int) (d : Nat) : Qv :=
  let g := Nat.gcd n.natAbs d
  if g = 0 then ⟨0, 1⟩ else ⟨n / (g : Int), d / g⟩

def Qv.ofNat (k : Nat) : Qv := ⟨(k : Int), 1⟩

def Qv.add (a b : Qv) : Qv :=
  Qv.norm (a.num * (b.den : Int) + b.num * (a.den : Int)) (a.den * b.den)

def Qv.sub (a b : Qv) : Qv :=
  Qv.norm (a.num * (b.den : Int) - b.num * (a.den : Int)) (a.den * b.den)

def Qv.mul (a b : Qv) : Qv :=
  Qv.norm (a.num * b.num) (a.den * b.den)

/-- Division; the zero-divisor case is unreachable because `parse_term`
guards it, the fallback value is arbitrary. -/
def Qv.div (a b : Qv) : Qv :=
  if b.num = 0 then ⟨0, 1⟩
  else if 0 < b.num then Qv.norm (a.num * (b.den : Int)) (a.den * b.num.toNat)
  else Qv.norm (-(a.num * (b.den : Int))) (a.den * (-b.num).toNat)

def Qv.neg (a : Qv) : Qv := ⟨-a.num, a.den⟩

def Qv.absQ (a : Qv) : Qv := ⟨(a.num.natAbs : Int), a.den⟩

def Qv.floorQ (a : Qv) : Qv := ⟨Int.fdiv a.num (a.den : Int), 1⟩

def Qv.ceilQ (a : Qv) : Qv := ⟨-Int.fdiv (-a.num) (a.den : Int), 1⟩

/-- Numeric comparison by cross-multiplication (denominators positive). -/
def Qv.ltb (a b : Qv) : Bool := decide (a.num * (b.den : Int) < b.num * (a.den : Int))

def Qv.leb (a b : Qv) : Bool := decide (a.num * (b.den : Int) ≤ b.num * (a.den : Int))

def Qv.eqb (a b : Qv) : Bool := decide (a.num * (b.den : Int) = b.num * (a.den : Int))

/-- A C double: a finite rational or the NaN sentinel. -/
inductive Val where
  | num (q : Qv)
  | nan
deriving DecidableEq, Repr

def Val.zero : Val := .num ⟨0, 1⟩

def Val.add : Val → Val → Val
  | .num a, .num b => .num (Qv.add a b)
  | _, _ => .nan

def Val.sub : Val → Val → Val
  | .num a, .num b => .num (Qv.sub a b)
  | _, _ => .nan

def Val.mul : Val → Val → Val
  | .num a, .num b => .num (Qv.mul a b)
  | _, _ => .nan

def Val.div : Val → Val → Val
  | .num a, .num b => .num (Qv.div a b)
  | _, _ => .nan

def Val.neg : Val → Val
  | .num a => .num (Qv.neg a)
  | .nan => .nan

/-- The C test `v == 0.0`: false for NaN, numeric equality otherwise. -/
def Val.isZero : Val → Bool
  | .num a => decide (a.num = 0)
  | .nan => false

/-- `left > right` on doubles: false if either operand is NaN. -/
def Val.cmpGt : Val → Val → Bool
  | .num a, .num b => Qv.ltb b a
  | _, _ => false

def Val.cmpLt : Val → Val → Bool
  | .num a, .num b => Qv.ltb a b
  | _, _ => false

def Val.cmpGe : Val → Val → Bool
  | .num a, .num b => Qv.leb b a
  | _, _ => false

def Val.cmpLe : Val → Val → Bool
  | .num a, .num b => Qv.leb a b
  | _, _ => false

def Val.cmpEq : Val → Val → Bool
  | .num a, .num b => Qv.eqb a b
  | _, _ => false

/-- `left != right` on doubles: true if either operand is NaN. -/
def Val.cmpNe : Val → Val → Bool
  | .num a, .num b => !Qv.eqb a b
  | _, _ => true

abbrev Str := List Char

/-- Reading `*p`: the character under the cursor, `'\x00'` at end of text. -/
def headChar : Str → Char
  | [] => '\x00'
  | c :: _ => c

/-- `isspace` of C's default locale. -/
def isSpaceC (c : Char) : Bool :=
  c == ' ' || c == '\t' || c == '\n' || c == '\x0b' || c == '\x0c' || c == '\r'

def isDigitC (c : Char) : Bool := c.isDigit

def toLowerC (c : Char) : Char :=
  if 65 ≤ c.toNat ∧ c.toNat ≤ 90 then Char.ofNat (c.toNat + 32) else c

/-- `is_alpha_or_underscore`. -/
def isAlphaUnd (c : Char) : Bool := c.isAlpha || c == '_'

/-- `is_alnum_or_underscore`. -/
def isAlnumUnd (c : Char) : Bool := c.isAlphanum || c == '_'

/-- Does the text start (before its terminator) with a character satisfying
`f`?  Encodes C idioms like `isdigit((unsigned char)*p->s)`. -/
def head_is (f : Char → Bool) : Str → Bool
  | [] => false
  | c :: _ => f c

/-- The statically allocated parser error messages of g2basic.c, one
constructor per distinct message (parameterized where the C code formats
data into the message). `outOfFuel` is a model artifact for exhausted
recursion fuel and corresponds to no C message. -/
inductive Err where
  | gotoNeedsLineNumber
  | invalidGotoLine
  | expectedComparisonOp
  | unknownComparisonOp
  | expectedThen
  | invalidIfThenLine
  | expectedVarAfterFor
  | varParseFailed
  | expectedEqAfterFor
  | expectedTo
  | expectedVarAfterNext
  | nextWithoutFor
  | nextVarMismatch
  | forVarNotFound
  | gosubNeedsLineNumber
  | invalidGosubLine
  | returnWithoutGosub
  | divisionByZero
  | expectedNumber
  | expectedVariableName
  | undefinedVariable (name : Str)
  | unknownFunction (name : Str)
  | expectedChar (c : Char)
  | tooManyArgs
  | wrongArgCount (name : Str) (want : Int) (got : Nat)
  | identParseFailed
  | unexpectedCharsAtEnd
  | unknownError
  | outOfFuel
deriving DecidableEq, Repr

/-- The C text of each message (quotes around formatted names written with
the escape \x27). -/
def Err.message : Err → String
  | .gotoNeedsLineNumber => "GOTO requires a line number"
  | .invalidGotoLine => "invalid GOTO line number"
  | .expectedComparisonOp => "expected comparison operator"
  | .unknownComparisonOp => "unknown comparison operator"
  | .expectedThen => "expected THEN after IF condition"
  | .invalidIfThenLine => "invalid IF-THEN line number"
  | .expectedVarAfterFor => "expected variable name after FOR"
  | .varParseFailed => "failed to parse variable name or memory allocation failed"
  | .expectedEqAfterFor => "expected \x27=\x27 after FOR variable"
  | .expectedTo => "expected TO after FOR start value"
  | .expectedVarAfterNext => "expected variable name after NEXT"
  | .nextWithoutFor => "NEXT without matching FOR"
  | .nextVarMismatch => "NEXT variable doesn\x27t match FOR variable"
  | .forVarNotFound => "FOR variable not found"
  | .gosubNeedsLineNumber => "GOSUB requires a line number"
  | .invalidGosubLine => "invalid GOSUB line number"
  | .returnWithoutGosub => "RETURN without matching GOSUB"
  | .divisionByZero => "division by zero"
  | .expectedNumber => "expected number"
  | .expectedVariableName => "expected variable name"
  | .undefinedVariable name => "undefined variable \x27" ++ String.mk name ++ "\x27"
  | .unknownFunction name => "unknown function \x27" ++ String.mk name ++ "\x27"
  | .expectedChar c => "expected \x27" ++ String.mk [c] ++ "\x27"
  | .tooManyArgs => "too many function arguments"
  | .wrongArgCount name want got =>
      "function \x27" ++ String.mk name ++ "\x27 expects " ++ toString want ++
      " arguments, got " ++ toString got
  | .identParseFailed => "failed to parse identifier or memory allocation failed"
  | .unexpectedCharsAtEnd => "Unexpected characters at end"
  | .unknownError => "Unknown error"
  | .outOfFuel => "model: out of recursion fuel"

/-- One item written through the output sink. -/
inductive OutItem where
  | valOut (v : Val)
  | strOut (s : String)
  | listLine (n : Int) (text : Str)
  | runError (n : Int) (e : Err)
  | lineNotFound (n : Int)
deriving DecidableEq, Repr

/-- Tag for the native callback stored in a `Function` registry entry. -/
inductive FuncTag where
  | fsin | fcos | ftan | fsqrt | fabs | fpow | flog | flog10
  | fexp | ffloor | fceil | fmin | fmax
deriving DecidableEq, Repr

/-- One entry of the function registry (`struct Function`). -/
structure FuncDef where
  name : Str
  argCount : Int
  tag : FuncTag
deriving DecidableEq, Repr

/-- One stored program line (`struct ProgramLine`). -/
abbrev PLine := Int × Str

/-- One frame of the FOR stack (`struct ForLoop`). -/
structure ForFrame where
  varName : Str
  startValue : Val
  endValue : Val
  stepValue : Val
  forLineNumber : Int
deriving DecidableEq, Repr

/-- The interpreter's global state (`vars` is C's `variables_head` list; the
name `variables` is reserved in Lean). -/
structure Interp where
  vars : List (Str × Val)
  functions : List FuncDef
  program : List PLine
  gotoTarget : Int
  forStack : List ForFrame
  gosubStack : List Int
  currentLineIndex : Int
  out : List OutItem
deriving DecidableEq, Repr

/-- The parser cursor and error cell (`struct Parser`; the `start` field is
only kept in C for position reporting and is never read). -/
structure PState where
  s : Str
  err : Option Err
deriving DecidableEq, Repr

def setErr (p : PState) (e : Err) : PState := { p with err := some e }

/-- The mathematical core of the transcendental built-ins, left abstract:
each field stands for the C library function applied to a double. -/
structure MathOracle where
  osin : Val → Val
  ocos : Val → Val
  otan : Val → Val
  osqrt : Val → Val
  olog : Val → Val
  olog10 : Val → Val
  oexp : Val → Val
  opow : Val → Val → Val

/-- A concrete oracle used to instantiate witnesses (none of the programs
they run call a transcendental function). -/
def dOra : MathOracle :=
  ⟨fun _ => .nan, fun _ => .nan, fun _ => .nan, fun _ => .nan,
   fun _ => .nan, fun _ => .nan, fun _ => .nan, fun _ _ => .nan⟩

/-- `skip_ws`. -/
def skip_ws : Str → Str
  | [] => []
  | c :: rest => if isSpaceC c then skip_ws rest else c :: rest

/-- `skip_word`: advance the cursor by the keyword's length (the match was
established beforehand by `is_keyword`). -/
def skip_word (p : Str) (word : String) : Str := p.drop word.length

/-- The character-by-character case-insensitive comparison loop of
`is_keyword`, including the trailing whitespace-or-terminator test. -/
def keyword_match : Str → Str → Bool
  | s, [] => s.isEmpty || isSpaceC (headChar s)
  | [], _ :: _ => false
  | c :: cs, k :: ks => toLowerC c == toLowerC k && keyword_match cs ks

/-- `is_keyword`. -/
def is_keyword (input : Str) (command : String) : Bool :=
  keyword_match (skip_ws input) command.toList

/-- `parse_identifier`: a leading letter or underscore followed by
alphanumerics/underscores; `none` corresponds to C's NULL return (first
character unsuitable; the allocation-failure return is not modelled). -/
def parse_identifier_run : Str → Str × Str
  | [] => ([], [])
  | c :: rest =>
    if isAlnumUnd c then
      let r := parse_identifier_run rest
      (c :: r.1, r.2)
    else ([], c :: rest)

def parse_identifier (s : Str) : Option (Str × Str) :=
  if head_is isAlphaUnd s then some (parse_identifier_run s) else none

/-- `get_variable`: first match in the linked list, NaN when absent. -/
def get_variable : List (Str × Val) → Str → Val
  | [], _ => .nan
  | v :: rest, name => if v.1 = name then v.2 else get_variable rest name

/-- `set_variable`: update the first match in place, otherwise push a new
entry at the head of the list. -/
def set_variable : List (Str × Val) → Str → Val → List (Str × Val)
  | [], name, value => [(name, value)]
  | v :: rest, name, value =>
    if v.1 = name then (name, value) :: rest
    else v :: set_variable rest name value

/-- `find_program_line`: exact line-number match. -/
def find_program_line : List PLine → Int → Option PLine
  | [], _ => none
  | l :: rest, n => if l.1 = n then some l else find_program_line rest n

/-- `find_next_program_line`: first stored line with a greater number. -/
def find_next_program_line : List PLine → Int → Option PLine
  | [], _ => none
  | l :: rest, n => if l.1 > n then some l else find_next_program_line rest n

/-- The suffix of the stored-line list that starts at the node
`find_program_line` returns; models `run_program`'s jump to a node pointer,
from which it continues via the `next` links. -/
def find_line_suffix : List PLine → Int → Option (List PLine)
  | [], _ => none
  | l :: rest, n => if l.1 = n then some (l :: rest) else find_line_suffix rest n

/-- `delete_program_line` (also the unlink-if-existing first step of
`insert_program_line_sorted`): remove the first node with the given
number, no-op when absent. -/
def delete_program_line : List PLine → Int → List PLine
  | [], _ => []
  | l :: rest, n => if l.1 = n then rest else l :: delete_program_line rest n

/-- The insertion walk of `insert_program_line_sorted`: `cur` is the node
the C cursor rests on; the new line is linked after the last node whose
number is below `n`. -/
def insert_walk (n : Int) (t : Str) (cur : PLine) : List PLine → List PLine
  | [] => [cur, (n, t)]
  | nxt :: rest =>
    if nxt.1 < n then cur :: insert_walk n t nxt rest
    else cur :: (n, t) :: nxt :: rest

/-- `insert_program_line_sorted`: unlink an existing node with the same
number, then link a fresh node at the sorted position. -/
def insert_program_line_sorted (prog : List PLine) (n : Int) (t : Str) : List PLine :=
  let prog1 := delete_program_line prog n
  match prog1 with
  | [] => [(n, t)]
  | h :: rest => if h.1 > n then (n, t) :: h :: rest else insert_walk n t h rest

/-- `find_function`. -/
def find_function : List FuncDef → Str → Option FuncDef
  | [], _ => none
  | f :: rest, name => if f.name = name then some f else find_function rest name

/-- `g2basic_register_function`: reject duplicates, otherwise push at the
head; returns the new registry and the C return code. -/
def g2basic_register_function (fns : List FuncDef) (name : Str) (argCount : Int)
    (tag : FuncTag) : List FuncDef × Int :=
  match find_function fns name with
  | some _ => (fns, -1)
  | none => (⟨name, argCount, tag⟩ :: fns, 0)

/-- `init_builtin_functions`: the thirteen registrations in source order. -/
def init_builtin_functions : List FuncDef :=
  let regs : List (String × Int × FuncTag) :=
    [("sin", 1, .fsin), ("cos", 1, .fcos), ("tan", 1, .ftan),
     ("sqrt", 1, .fsqrt), ("abs", 1, .fabs), ("pow", 2, .fpow),
     ("log", 1, .flog), ("log10", 1, .flog10), ("exp", 1, .fexp),
     ("floor", 1, .ffloor), ("ceil", 1, .fceil),
     ("min", -1, .fmin), ("max", -1, .fmax)]
  regs.foldl (fun fns r => (g2basic_register_function fns r.1.toList r.2.1 r.2.2).1) []

/-- The body of `func_min`'s scanning loop. -/
def min_fold (first : Val) (rest : List Val) : Val :=
  rest.foldl (fun m x => if Val.cmpLt x m then x else m) first

def max_fold (first : Val) (rest : List Val) : Val :=
  rest.foldl (fun m x => if Val.cmpGt x m then x else m) first

/-- The `func_*` wrappers: argument-count checks and domain guards are
translated from the C wrappers; the mathematical core of the
transcendental functions is taken from the oracle. -/
def applyFunc (ora : MathOracle) (tag : FuncTag) (args : List Val) : Val :=
  match tag, args with
  | .fsin, [a] => ora.osin a
  | .fsin, _ => .nan
  | .fcos, [a] => ora.ocos a
  | .fcos, _ => .nan
  | .ftan, [a] => ora.otan a
  | .ftan, _ => .nan
  | .fsqrt, [a] => if Val.cmpLt a Val.zero then .nan else ora.osqrt a
  | .fsqrt, _ => .nan
  | .fabs, [a] => match a with | .num q => .num (Qv.absQ q) | .nan => .nan
  | .fabs, _ => .nan
  | .fpow, [a, b] => ora.opow a b
  | .fpow, _ => .nan
  | .flog, [a] => if Val.cmpLe a Val.zero then .nan else ora.olog a
  | .flog, _ => .nan
  | .flog10, [a] => if Val.cmpLe a Val.zero then .nan else ora.olog10 a
  | .flog10, _ => .nan
  | .fexp, [a] => ora.oexp a
  | .fexp, _ => .nan
  | .ffloor, [a] => match a with | .num q => .num (Qv.floorQ q) | .nan => .nan
  | .ffloor, _ => .nan
  | .fceil, [a] => match a with | .num q => .num (Qv.ceilQ q) | .nan => .nan
  | .fceil, _ => .nan
  | .fmin, [] => .nan
  | .fmin, a :: rest => min_fold a rest
  | .fmax, [] => .nan
  | .fmax, a :: rest => max_fold a rest

/-- The digit-accumulation core of `strtol` base 10 (the sign and
whitespace handling of `strtol` is unreachable: every caller has already
checked `isdigit` on the first character). -/
def read_nat_aux (acc : Nat) : Str → Nat × Str
  | [] => (acc, [])
  | c :: rest =>
    if isDigitC c then read_nat_aux (acc * 10 + (c.toNat - 48)) rest
    else (acc, c :: rest)

def read_nat (s : Str) : Nat × Str := read_nat_aux 0 s

/-- A maximal digit run: value, number of digits, rest. -/
def read_digits_aux (acc cnt : Nat) : Str → Nat × Nat × Str
  | [] => (acc, cnt, [])
  | c :: rest =>
    if isDigitC c then read_digits_aux (acc * 10 + (c.toNat - 48)) (cnt + 1) rest
    else (acc, cnt, c :: rest)

def read_digits (s : Str) : Nat × Nat × Str := read_digits_aux 0 0 s

/-- `strtod` on the inputs `parse_number` can reach: unsigned decimal
mantissa with optional fraction and optional exponent (the exponent is
consumed only when at least one digit follows it, as in C); returns the
value and the rest of the text, or `none` when no digits were consumed. -/
def strtod_model (s : Str) : Option (Qv × Str) :=
  let ipr := read_digits s
  let fpr := match ipr.2.2 with
    | '.' :: r => read_digits r
    | other => (0, 0, other)
  if ipr.2.1 + fpr.2.1 = 0 then none
  else
    let mant := Qv.div (Qv.ofNat (ipr.1 * 10 ^ fpr.2.1 + fpr.1)) (Qv.ofNat (10 ^ fpr.2.1))
    match fpr.2.2 with
    | c :: r =>
      if c = 'e' ∨ c = 'E' then
        let sgnr : Bool × Str := match r with
          | '+' :: r2 => (false, r2)
          | '-' :: r2 => (true, r2)
          | other => (false, other)
        if head_is isDigitC sgnr.2 then
          let er := read_nat sgnr.2
          let v := if sgnr.1 then Qv.div mant (Qv.ofNat (10 ^ er.1))
                   else Qv.mul mant (Qv.ofNat (10 ^ er.1))
          some (v, er.2)
        else some (mant, c :: r)
      else some (mant, c :: r)
    | [] => some (mant, [])

/-- `accept`: skip whitespace, consume `c` if present. -/
def accept (p : PState) (c : Char) : PState × Bool :=
  let p1 : PState := { p with s := skip_ws p.s }
  if headChar p1.s = c then ({ p1 with s := p1.s.tail }, true) else (p1, false)

/-- `expect`: skip whitespace, consume `c` or set the error cell. -/
def expect (p : PState) (c : Char) : PState :=
  let p1 : PState := { p with s := skip_ws p.s }
  if headChar p1.s = c then { p1 with s := p1.s.tail } else setErr p1 (.expectedChar c)

/-- `parse_number`: skip whitespace and read a literal with `strtod`. -/
def parse_number (p : PState) : PState × Val :=
  let p1 : PState := { p with s := skip_ws p.s }
  match strtod_model p1.s with
  | none => (setErr p1 .expectedNumber, .nan)
  | some (q, rest) => ({ p1 with s := rest }, .num q)

/-- `parse_variable`: read an identifier and look it up; a NaN lookup
result (absent variable or stored NaN) is the "undefined variable"
error. -/
def parse_variable (st : Interp) (p : PState) : PState × Val :=
  let p1 : PState := { p with s := skip_ws p.s }
  if ¬ head_is isAlphaUnd p1.s then (setErr p1 .expectedVariableName, .nan)
  else
    match parse_identifier p1.s with
    | none => (setErr p1 .varParseFailed, .nan)
    | some (name, s1) =>
      let value := get_variable st.vars name
      if value = .nan then ({ s := s1, err := some (.undefinedVariable name) }, .nan)
      else ({ p1 with s := s1 }, value)

mutual

/-- `parse_factor`. -/
def parse_factor (ora : MathOracle) (st : Interp) : Nat → PState → PState × Val
  | 0, p => (setErr p .outOfFuel, .nan)
  | fuel + 1, p =>
    let p1 : PState := { p with s := skip_ws p.s }
    if headChar p1.s = '+' then parse_factor ora st fuel { p1 with s := p1.s.tail }
    else if headChar p1.s = '-' then
      let r := parse_factor ora st fuel { p1 with s := p1.s.tail }
      (r.1, Val.neg r.2)
    else
      let ar := accept p1 '('
      if ar.2 then
        let r := parse_expr ora st fuel ar.1
        if r.1.err.isSome then r
        else (expect r.1 ')', r.2)
      else if head_is isAlphaUnd p1.s then
        match parse_identifier p1.s with
        | none => (setErr p1 .identParseFailed, .nan)
        | some (name, s1) =>
          let p2 : PState := { p1 with s := skip_ws s1 }
          if headChar p2.s = '(' then parse_function_call ora st fuel p2 name
          else parse_variable st p1
      else parse_number p1

/-- `parse_function_call` (the callee name has already been read). -/
def parse_function_call (ora : MathOracle) (st : Interp) :
    Nat → PState → Str → PState × Val
  | 0, p, _ => (setErr p .outOfFuel, .nan)
  | fuel + 1, p, fname =>
    match find_function st.functions fname with
    | none => (setErr p (.unknownFunction fname), .nan)
    | some f =>
      let p1 := expect p '('
      if p1.err.isSome then (p1, .nan)
      else
        let p2 : PState := { p1 with s := skip_ws p1.s }
        let r :=
          if headChar p2.s = ')' then (p2, ([] : List Val))
          else func_arg_loop ora st fuel p2 []
        if r.1.err.isSome then (r.1, .nan)
        else
          let p3 := expect r.1 ')'
          if p3.err.isSome then (p3, .nan)
          else if 0 ≤ f.argCount ∧ (r.2.length : Int) ≠ f.argCount then
            (setErr p3 (.wrongArgCount f.name f.argCount r.2.length), .nan)
          else (p3, applyFunc ora f.tag r.2)

/-- The argument-collecting do-while loop of `parse_function_call`
(MAX_FUNC_ARGS is 8). -/
def func_arg_loop (ora : MathOracle) (st : Interp) :
    Nat → PState → List Val → PState × List Val
  | 0, p, args => (setErr p .outOfFuel, args)
  | fuel + 1, p, args =>
    if args.length ≥ 8 then (setErr p .tooManyArgs, args)
    else
      let r := parse_expr ora st fuel p
      if r.1.err.isSome then (r.1, args)
      else
        let args1 := args ++ [r.2]
        let p1 : PState := { r.1 with s := skip_ws r.1.s }
        if headChar p1.s = ',' then func_arg_loop ora st fuel { p1 with s := p1.s.tail } args1
        else (p1, args1)

/-- `parse_term`. -/
def parse_term (ora : MathOracle) (st : Interp) : Nat → PState → PState × Val
  | 0, p => (setErr p .outOfFuel, .nan)
  | fuel + 1, p =>
    let r := parse_factor ora st fuel p
    term_loop ora st fuel r.2 r.1

/-- The `'*'`/`'/'` while loop of `parse_term`; a right operand that
compares equal to 0.0 under `/` is the "division by zero" hard error. -/
def term_loop (ora : MathOracle) (st : Interp) : Nat → Val → PState → PState × Val
  | 0, _, p => (setErr p .outOfFuel, .nan)
  | fuel + 1, v, p =>
    if p.err.isSome then (p, v)
    else
      let p1 : PState := { p with s := skip_ws p.s }
      if headChar p1.s = '*' then
        let r := parse_factor ora st fuel { p1 with s := p1.s.tail }
        if r.1.err.isSome then (r.1, v)
        else term_loop ora st fuel (Val.mul v r.2) r.1
      else if headChar p1.s = '/' then
        let r := parse_factor ora st fuel { p1 with s := p1.s.tail }
        if r.1.err.isSome then (r.1, v)
        else if Val.isZero r.2 then (setErr r.1 .divisionByZero, .nan)
        else term_loop ora st fuel (Val.div v r.2) r.1
      else (p1, v)

/-- `parse_expr`. -/
def parse_expr (ora : MathOracle) (st : Interp) : Nat → PState → PState × Val
  | 0, p => (setErr p .outOfFuel, .nan)
  | fuel + 1, p =>
    let r := parse_term ora st fuel p
    expr_loop ora st fuel r.2 r.1

/-- The `'+'`/`'-'` while loop of `parse_expr`. -/
def expr_loop (ora : MathOracle) (st : Interp) : Nat → Val → PState → PState × Val
  | 0, _, p => (setErr p .outOfFuel, .nan)
  | fuel + 1, v, p =>
    if p.err.isSome then (p, v)
    else
      let p1 : PState := { p with s := skip_ws p.s }
      if headChar p1.s = '+' then
        let r := parse_term ora st fuel { p1 with s := p1.s.tail }
        if r.1.err.isSome then (r.1, v)
        else expr_loop ora st fuel (Val.add v r.2) r.1
      else if headChar p1.s = '-' then
        let r := parse_term ora st fuel { p1 with s := p1.s.tail }
        if r.1.err.isSome then (r.1, v)
        else expr_loop ora st fuel (Val.sub v r.2) r.1
      else (p1, v)

end

/-- The `1.0 : 0.0` result of a comparison. -/
def cmp_result (b : Bool) : Val := if b then .num ⟨1, 1⟩ else .num ⟨0, 1⟩

/-- `parse_comparison`: one comparison operator between two expressions;
note that `==` parses as `=` followed by a second consumed `=`, which the
evaluation table rejects as "unknown comparison operator". -/
def parse_comparison (ora : MathOracle) (st : Interp) (fuel : Nat) (p : PState) :
    PState × Val :=
  let r := parse_expr ora st fuel p
  if r.1.err.isSome then (r.1, .nan)
  else
    let p1 : PState := { r.1 with s := skip_ws r.1.s }
    let op1 := headChar p1.s
    if op1 = '>' ∨ op1 = '<' ∨ op1 = '=' then
      let p2 : PState := { p1 with s := p1.s.tail }
      let two := headChar p2.s = '=' ∨ (headChar p2.s = '>' ∧ op1 = '<')
      let op2 : Option Char := if two then some (headChar p2.s) else none
      let p3 : PState := if two then { p2 with s := p2.s.tail } else p2
      let r2 := parse_expr ora st fuel p3
      if r2.1.err.isSome then (r2.1, .nan)
      else
        if op1 = '>' ∧ op2 = none then (r2.1, cmp_result (Val.cmpGt r.2 r2.2))
        else if op1 = '<' ∧ op2 = none then (r2.1, cmp_result (Val.cmpLt r.2 r2.2))
        else if op1 = '>' ∧ op2 = some '=' then (r2.1, cmp_result (Val.cmpGe r.2 r2.2))
        else if op1 = '<' ∧ op2 = some '=' then (r2.1, cmp_result (Val.cmpLe r.2 r2.2))
        else if op1 = '=' ∧ op2 = none then (r2.1, cmp_result (Val.cmpEq r.2 r2.2))
        else if op1 = '<' ∧ op2 = some '>' then (r2.1, cmp_result (Val.cmpNe r.2 r2.2))
        else (setErr r2.1 .unknownComparisonOp, .nan)
    else (setErr p1 .expectedComparisonOp, .nan)

/-- The expression-printing do-while loop of `parse_print_statement`.
The stray `printf("!\n")` on an expression error goes to stdout, not the
output sink, and is therefore not an `OutItem`. -/
def print_loop (ora : MathOracle) : Nat → Interp → Bool → PState → Interp × PState × Val
  | 0, st, _, p => (st, setErr p .outOfFuel, .nan)
  | fuel + 1, st, first, p =>
    let st1 := if first then st else { st with out := st.out ++ [.strOut " "] }
    let r := parse_expr ora st1 fuel p
    if r.1.err.isSome then (st1, r.1, .nan)
    else
      let st2 := { st1 with out := st1.out ++ [.valOut r.2] }
      let p1 : PState := { r.1 with s := skip_ws r.1.s }
      if headChar p1.s = ',' then
        let p2 : PState := { p1 with s := skip_ws p1.s.tail }
        if p2.s.isEmpty then ({ st2 with out := st2.out ++ [.strOut "\n"] }, p2, .num ⟨0, 1⟩)
        else print_loop ora fuel st2 false p2
      else ({ st2 with out := st2.out ++ [.strOut "\n"] }, p1, .num ⟨0, 1⟩)

/-- `parse_print_statement`. -/
def parse_print_statement (ora : MathOracle) (fuel : Nat) (st : Interp) (p : PState) :
    Interp × PState × Val :=
  if p.s.isEmpty then ({ st with out := st.out ++ [.strOut "\n"] }, p, .num ⟨0, 1⟩)
  else print_loop ora fuel st true p

/-- `parse_goto_statement`. -/
def parse_goto_statement (st : Interp) (p : PState) : Interp × PState × Val :=
  if ¬ head_is isDigitC p.s then (st, setErr p .gotoNeedsLineNumber, .nan)
  else
    let r := read_nat p.s
    if r.1 > 65535 then (st, setErr p .invalidGotoLine, .nan)
    else ({ st with gotoTarget := (r.1 : Int) }, { p with s := r.2 }, .num ⟨0, 1⟩)

/-- `parse_for_statement`. -/
def parse_for_statement (ora : MathOracle) (fuel : Nat) (st : Interp) (p : PState) :
    Interp × PState × Val :=
  if ¬ head_is isAlphaUnd p.s then (st, setErr p .expectedVarAfterFor, .nan)
  else
    match parse_identifier p.s with
    | none => (st, setErr p .varParseFailed, .nan)
    | some (name, s1) =>
      let p1 : PState := { p with s := skip_ws s1 }
      if headChar p1.s ≠ '=' then (st, setErr p1 .expectedEqAfterFor, .nan)
      else
        let rs := parse_expr ora st fuel { p1 with s := p1.s.tail }
        if rs.1.err.isSome then (st, rs.1, .nan)
        else
          let p2 : PState := { rs.1 with s := skip_ws rs.1.s }
          if ¬ is_keyword p2.s "TO" then (st, setErr p2 .expectedTo, .nan)
          else
            let re := parse_expr ora st fuel { p2 with s := p2.s.drop 2 }
            if re.1.err.isSome then (st, re.1, .nan)
            else
              let p3 : PState := { re.1 with s := skip_ws re.1.s }
              let rstep :=
                if is_keyword p3.s "STEP" then
                  parse_expr ora st fuel { p3 with s := p3.s.drop 4 }
                else (p3, .num ⟨1, 1⟩)
              if rstep.1.err.isSome then (st, rstep.1, .nan)
              else
                let frame : ForFrame := ⟨name, rs.2, re.2, rstep.2, st.currentLineIndex⟩
                ({ st with forStack := frame :: st.forStack,
                           vars := set_variable st.vars name rs.2 },
                 rstep.1, .num ⟨0, 1⟩)

/-- `parse_next_statement`: only the top FOR frame is consulted; the loop
variable is stored back only when the loop continues. -/
def parse_next_statement (st : Interp) (p : PState) : Interp × PState × Val :=
  if ¬ head_is isAlphaUnd p.s then (st, setErr p .expectedVarAfterNext, .nan)
  else
    match parse_identifier p.s with
    | none => (st, setErr p .varParseFailed, .nan)
    | some (name, s1) =>
      let p1 : PState := { p with s := s1 }
      match st.forStack with
      | [] => (st, setErr p1 .nextWithoutFor, .nan)
      | loop :: restStack =>
        if loop.varName ≠ name then (st, setErr p1 .nextVarMismatch, .nan)
        else
          let currentVal := get_variable st.vars name
          if currentVal = .nan then (st, setErr p1 .forVarNotFound, .nan)
          else
            let newVal := Val.add currentVal loop.stepValue
            let continueLoop :=
              if Val.cmpGt loop.stepValue Val.zero then Val.cmpLe newVal loop.endValue
              else Val.cmpGe newVal loop.endValue
            if continueLoop then
              let st1 := { st with vars := set_variable st.vars name newVal }
              let st2 :=
                match find_next_program_line st1.program loop.forLineNumber with
                | some nl => { st1 with gotoTarget := nl.1 }
                | none => st1
              (st2, p1, .num ⟨0, 1⟩)
            else ({ st with forStack := restStack }, p1, .num ⟨0, 1⟩)

/-- `parse_gosub_statement`: the pushed return line is the stored line
after the current one, or -2 when none exists. -/
def parse_gosub_statement (st : Interp) (p : PState) : Interp × PState × Val :=
  if ¬ head_is isDigitC p.s then (st, setErr p .gosubNeedsLineNumber, .nan)
  else
    let r := read_nat p.s
    if r.1 > 65535 then (st, setErr p .invalidGosubLine, .nan)
    else
      let ret : Int :=
        match find_next_program_line st.program st.currentLineIndex with
        | some nl => nl.1
        | none => -2
      ({ st with gosubStack := ret :: st.gosubStack, gotoTarget := (r.1 : Int) },
       { p with s := r.2 }, .num ⟨0, 1⟩)

/-- `parse_return_statement`. -/
def parse_return_statement (st : Interp) (p : PState) : Interp × PState × Val :=
  match st.gosubStack with
  | [] => (st, setErr p .returnWithoutGosub, .nan)
  | rl :: rest =>
    if rl = -2 then ({ st with gosubStack := rest, gotoTarget := -2 }, p, .num ⟨0, 1⟩)
    else ({ st with gosubStack := rest, gotoTarget := rl }, p, .num ⟨0, 1⟩)

/-- `parse_end_statement`. -/
def parse_end_statement (st : Interp) (p : PState) : Interp × PState × Val :=
  ({ st with gotoTarget := -2 }, p, .num ⟨0, 1⟩)

mutual

/-- `parse_statement`: keyword dispatch in the order of the `keywords`
table, then assignment-or-expression fallback. -/
def parse_statement (ora : MathOracle) : Nat → Interp → PState → Interp × PState × Val
  | 0, st, p => (st, setErr p .outOfFuel, .nan)
  | fuel + 1, st, p =>
    let p1 : PState := { p with s := skip_ws p.s }
    if is_keyword p1.s "PRINT" then
      parse_print_statement ora fuel st { p1 with s := skip_ws (skip_word p1.s "PRINT") }
    else if is_keyword p1.s "GOTO" then
      parse_goto_statement st { p1 with s := skip_ws (skip_word p1.s "GOTO") }
    else if is_keyword p1.s "IF" then
      parse_if_statement ora fuel st { p1 with s := skip_ws (skip_word p1.s "IF") }
    else if is_keyword p1.s "FOR" then
      parse_for_statement ora fuel st { p1 with s := skip_ws (skip_word p1.s "FOR") }
    else if is_keyword p1.s "NEXT" then
      parse_next_statement st { p1 with s := skip_ws (skip_word p1.s "NEXT") }
    else if is_keyword p1.s "GOSUB" then
      parse_gosub_statement st { p1 with s := skip_ws (skip_word p1.s "GOSUB") }
    else if is_keyword p1.s "RETURN" then
      parse_return_statement st { p1 with s := skip_ws (skip_word p1.s "RETURN") }
    else if is_keyword p1.s "END" then
      parse_end_statement st { p1 with s := skip_ws (skip_word p1.s "END") }
    else if head_is isAlphaUnd p1.s then
      match parse_identifier p1.s with
      | none => (st, setErr p1 .varParseFailed, .nan)
      | some (name, s1) =>
        let p2 : PState := { p1 with s := skip_ws s1 }
        if headChar p2.s = '=' then
          let r := parse_expr ora st fuel { p2 with s := p2.s.tail }
          if r.1.err.isSome then (st, r.1, r.2)
          else ({ st with vars := set_variable st.vars name r.2 }, r.1, r.2)
        else
          let r := parse_expr ora st fuel p1
          (st, r.1, r.2)
    else
      let r := parse_expr ora st fuel p1
      (st, r.1, r.2)

/-- `parse_if_statement`: a true condition followed by a bare number sets
the jump target, otherwise the embedded statement runs recursively; a
false condition discards the rest of the line. -/
def parse_if_statement (ora : MathOracle) : Nat → Interp → PState → Interp × PState × Val
  | 0, st, p => (st, setErr p .outOfFuel, .nan)
  | fuel + 1, st, p =>
    let rc := parse_comparison ora st fuel p
    if rc.1.err.isSome then (st, rc.1, .nan)
    else
      let p1 : PState := { rc.1 with s := skip_ws rc.1.s }
      if ¬ is_keyword p1.s "THEN" then (st, setErr p1 .expectedThen, .nan)
      else
        let p2 : PState := { p1 with s := skip_ws (skip_word p1.s "THEN") }
        if Val.cmpNe rc.2 Val.zero then
          if head_is isDigitC p2.s then
            let r := read_nat p2.s
            if r.1 > 65535 then (st, setErr p2 .invalidIfThenLine, .nan)
            else ({ st with gotoTarget := (r.1 : Int) }, { p2 with s := r.2 }, .num ⟨0, 1⟩)
          else parse_statement ora fuel st p2
        else (st, { p2 with s := [] }, .num ⟨0, 1⟩)

end

/-- The result cell of `g2basic_eval`/`g2basic_parse`: the C return code
and the two out-parameters (`none` = the pointee was not written). -/
structure ParseOut where
  code : Int
  result : Option Val
  error : Option Err
deriving DecidableEq, Repr

/-- `g2basic_eval`: run one statement, then require only whitespace before
the terminator. -/
def g2basic_eval (ora : MathOracle) (fuel : Nat) (st : Interp) (text : Str) :
    Interp × ParseOut :=
  let r := parse_statement ora fuel st ⟨text, none⟩
  match r.2.1.err with
  | some e => (r.1, ⟨-1, none, some e⟩)
  | none =>
    if (skip_ws r.2.1.s).isEmpty then (r.1, ⟨0, some r.2.2, none⟩)
    else (r.1, ⟨-1, none, some .unexpectedCharsAtEnd⟩)

/-- Outcome of `run_program`: the C return values 0 / -1 plus the
model-only fuel exhaustion marker. -/
inductive RunRes where
  | done
  | errAbort
  | fuelOut
deriving DecidableEq, Repr

/-- The while loop of `run_program`: the current line is the suffix of the
stored-line list the C node pointer rests on. -/
def run_loop (ora : MathOracle) : Nat → Interp → List PLine → Interp × RunRes
  | 0, st, _ => (st, .fuelOut)
  | _ + 1, st, [] => (st, .done)
  | fuel + 1, st, line :: rest =>
    let st0 : Interp := { st with currentLineIndex := line.1 }
    let r := g2basic_eval ora fuel st0 line.2
    if r.2.code ≠ 0 then
      ({ r.1 with out := r.1.out ++ [.runError line.1 (r.2.error.getD .unknownError)] },
       .errAbort)
    else if r.1.gotoTarget ≠ -1 then
      if r.1.gotoTarget = -2 then (r.1, .done)
      else
        match find_line_suffix r.1.program r.1.gotoTarget with
        | none => ({ r.1 with out := r.1.out ++ [.lineNotFound r.1.gotoTarget] }, .errAbort)
        | some suf => run_loop ora fuel { r.1 with gotoTarget := -1 } suf
    else run_loop ora fuel r.1 rest

/-- `run_program`: reset the jump target and both stacks, then walk from
the first stored line. -/
def run_program (ora : MathOracle) (fuel : Nat) (st : Interp) : Interp × RunRes :=
  let st1 : Interp := { st with gotoTarget := -1, forStack := [], gosubStack := [] }
  run_loop ora fuel st1 st1.program

/-- `list_program`. -/
def list_program (st : Interp) : Interp :=
  { st with out := st.out ++ st.program.map (fun l => OutItem.listLine l.1 l.2) }

/-- `clear_all_program_lines`. -/
def clear_all_program_lines (st : Interp) : Interp := { st with program := [] }

/-- `clear_program`. -/
def clear_program (st : Interp) : Interp := clear_all_program_lines st

/-- `handle_basic_command`: LIST, RUN, NEW in that order. -/
def handle_basic_command (ora : MathOracle) (fuel : Nat) (st : Interp) (input : Str) :
    Interp × Bool :=
  let p := skip_ws input
  if is_keyword p "LIST" then (list_program st, true)
  else if is_keyword p "RUN" then ((run_program ora fuel st).1, true)
  else if is_keyword p "NEW" then (clear_program st, true)
  else (st, false)

/-- `g2basic_parse`: command dispatch, then line-number intake, then
immediate evaluation. -/
def g2basic_parse (ora : MathOracle) (fuel : Nat) (st : Interp) (input : Str) :
    Interp × ParseOut :=
  let hr := handle_basic_command ora fuel st input
  if hr.2 then (hr.1, ⟨3, some (.num ⟨0, 1⟩), none⟩)
  else
    let p := skip_ws input
    if head_is isDigitC p then
      let r := read_nat p
      if r.1 > 65535 then (hr.1, ⟨-1, none, none⟩)
      else
        let rest := skip_ws r.2
        if rest.isEmpty then
          ({ hr.1 with program := delete_program_line hr.1.program (r.1 : Int) },
           ⟨1, some (.num (Qv.ofNat r.1)), none⟩)
        else
          ({ hr.1 with program := insert_program_line_sorted hr.1.program (r.1 : Int) rest },
           ⟨2, some (.num (Qv.ofNat r.1)), none⟩)
    else g2basic_eval ora fuel hr.1 input

/-- `g2basic_init` (the output sink argument is modelled by the `out`
accumulator). -/
def g2basic_init : Interp :=
  { vars := [], functions := init_builtin_functions, program := [],
    gotoTarget := -1, forStack := [], gosubStack := [], currentLineIndex := -1, out := [] }

/-- A sequence of `g2basic_parse` calls, as a shell would submit lines. -/
def submit_all (ora : MathOracle) (fuel : Nat) (st : Interp) (inputs : List Str) : Interp :=
  inputs.foldl (fun s i => (g2basic_parse ora fuel s i).1) st

/-- The Program Store invariant: strictly ascending line numbers. -/
abbrev ProgSorted (prog : List PLine) : Prop :=
  List.Pairwise (fun a b => a.1 < b.1) prog

/-- Proof-side restatement of the tail of `insert_walk`: link the new line
before the first node whose number is not below `n`. -/
def ins_pos (n : Int) (t : Str) : List PLine → List PLine
  | [] => [(n, t)]
  | x :: xs => if x.1 < n then x :: ins_pos n t xs else (n, t) :: x :: xs

/-- The four-line FOR/NEXT program of the spec's §8 test followed by RUN. -/
def c1Inputs : List Str :=
  ["10 FOR I = 1 TO 3".toList, "20 PRINT I".toList, "30 NEXT I".toList,
   "40 END".toList, "RUN".toList]

/-- The interpreter state after submitting `c1Inputs` to a freshly
initialized interpreter. -/
def c1Final : Interp := submit_all dOra 32 g2basic_init c1Inputs

def c2Line : PLine := (10, "GOTO 50".toList)

def c2St : Interp := { g2basic_init with program := [c2Line] }

def c2St1 : Interp := { c2St with currentLineIndex := 10, gotoTarget := 50 }

def c5Frame : ForFrame := ⟨"I".toList, .num ⟨1, 1⟩, .num ⟨3, 1⟩, .num ⟨1, 1⟩, 10⟩

def c5St : Interp := { g2basic_init with forStack := [c5Frame] }

/-- A state in which variable X is stored with the NaN sentinel as its
value (as an invalid sqrt would leave it). -/
def c6St : Interp := { g2basic_init with vars := [("X".toList, .nan)] }

/-- A state with every component non-trivial, to exercise NEW. -/
def c8St : Interp :=
  { g2basic_init with
      program := [(10, "PRINT 1".toList), (20, "END".toList)],
      vars := [("x".toList, .num ⟨5, 1⟩)],
      forStack := [c5Frame],
      gosubStack := [30],
      gotoTarget := 7,
      out := [.strOut "hi"] }

theorem parse_identifier_head {s : Str} {r : Str × Str}
    (h : parse_identifier s = some r) : head_is isAlphaUnd s = true := by
  unfold parse_identifier at h
  split at h
  · assumption
  · cases h

theorem hbc_false_state (ora : MathOracle) (fuel : Nat) (st : Interp) (input : Str)
    (h : (handle_basic_command ora fuel st input).2 = false) :
    (handle_basic_command ora fuel st input).1 = st := by
  unfold handle_basic_command at h ⊢
  dsimp only at h ⊢
  cases hL : is_keyword (skip_ws input) "LIST" <;>
    cases hR : is_keyword (skip_ws input) "RUN" <;>
      cases hN : is_keyword (skip_ws input) "NEW" <;>
        simp [hL, hR, hN] at h ⊢

/-- C1: for the stored program 10 FOR I = 1 TO 3 / 20 PRINT I / 30 NEXT I /
40 END, RUN emits the values 1, 2, 3 in order, each followed by a newline,
but the loop variable I ends at 3, not 4: `parse_next_statement` stores the
incremented value back only when the loop continues, so the final increment
to 4 is discarded when the frame is popped.  This refutes the claim's final
conjunct (I = 4). -/
theorem c1_counterexample :
    ¬ (c1Final.out =
        [.valOut (.num ⟨1, 1⟩), .strOut "\n", .valOut (.num ⟨2, 1⟩), .strOut "\n",
         .valOut (.num ⟨3, 1⟩), .strOut "\n"]
       ∧ get_variable c1Final.vars "I".toList = Val.num ⟨4, 1⟩) := by
  decide!

/-- C1 (amended): the same program and RUN emit the values 1, 2 and 3 in
that order, each on its own line, and after the run completes the variable
I has the value 3 (the code pops the FOR frame without storing the final
increment). -/
theorem c1_for_next_amended :
    c1Final.out =
      [.valOut (.num ⟨1, 1⟩), .strOut "\n", .valOut (.num ⟨2, 1⟩), .strOut "\n",
       .valOut (.num ⟨3, 1⟩), .strOut "\n"]
    ∧ get_variable c1Final.vars "I".toList = Val.num ⟨3, 1⟩ := by
  decide!

/-- C9: when the leading statement of a line parses and evaluates without
error but non-whitespace text remains, `g2basic_eval` returns -1 with the
error "Unexpected characters at end" and does not write a result value. -/
theorem c9_unexpected_characters (ora : MathOracle) (fuel : Nat) (st st' : Interp)
    (text : Str) (p' : PState) (v : Val)
    (h : parse_statement ora fuel st ⟨text, none⟩ = (st', p', v))
    (hok : p'.err = none)
    (hrem : (skip_ws p'.s).isEmpty = false) :
    g2basic_eval ora fuel st text = (st', ⟨-1, none, some .unexpectedCharsAtEnd⟩) := by
  unfold g2basic_eval
  rw [h]
  simp [hok, hrem]

theorem c9_witness :
    parse_statement dOra 8 g2basic_init ⟨"1 2".toList, none⟩ =
      (g2basic_init, ⟨"2".toList, none⟩, .num ⟨1, 1⟩)
    ∧ g2basic_eval dOra 8 g2basic_init "1 2".toList =
      (g2basic_init, ⟨-1, none, some .unexpectedCharsAtEnd⟩) :=
  ⟨by decide!,
   c9_unexpected_characters dOra 8 g2basic_init g2basic_init "1 2".toList
     ⟨"2".toList, none⟩ (.num ⟨1, 1⟩) (by decide!) (by decide) (by decide)⟩

/-- C10: an input that is none of LIST/RUN/NEW and whose first
non-whitespace character starts a decimal integer greater than 65535 makes
`g2basic_parse` return -1 while leaving the whole interpreter state
untouched and writing neither out-parameter: the text is not stored and
not evaluated and no message is produced. -/
theorem c10_oversized_line_number (ora : MathOracle) (fuel : Nat) (st : Interp)
    (input : Str)
    (hcmd : (handle_basic_command ora fuel st input).2 = false)
    (hdig : head_is isDigitC (skip_ws input) = true)
    (hbig : (read_nat (skip_ws input)).1 > 65535) :
    g2basic_parse ora fuel st input = (st, ⟨-1, none, none⟩) := by
  have hst := hbc_false_state ora fuel st input hcmd
  unfold g2basic_parse
  simp [hcmd, hdig, hst, hbig]

theorem c10_witness :
    g2basic_parse dOra 8 c8St "99999".toList = (c8St, ⟨-1, none, none⟩) :=
  c10_oversized_line_number dOra 8 c8St "99999".toList
    (by decide!) (by decide) (by decide)

/-- C5: `NEXT V` with a non-empty FOR stack whose top frame's variable
differs from V fails with the semantic error "NEXT variable doesn't match
FOR variable" and leaves the interpreter state (FOR stack, variables,
pending-jump target — indeed every component) exactly unchanged: the
mismatched frame is not popped and no deeper frame is searched. -/
theorem c5_next_mismatch (st : Interp) (p : PState) (name s1 : Str)
    (loop : ForFrame) (restStack : List ForFrame)
    (hid : parse_identifier p.s = some (name, s1))
    (hstack : st.forStack = loop :: restStack)
    (hmm : loop.varName ≠ name) :
    parse_next_statement st p = (st, ⟨s1, some .nextVarMismatch⟩, .nan) := by
  have hh := parse_identifier_head hid
  unfold parse_next_statement
  rw [hh]
  simp only [Bool.true_eq_false, if_false, ite_false, Bool.not_true, reduceIte]
  rw [hid, hstack]
  simp [hmm, setErr]

theorem c5_witness :
    parse_next_statement c5St ⟨"J".toList, none⟩ =
      (c5St, ⟨[], some .nextVarMismatch⟩, .nan) :=
  c5_next_mismatch c5St ⟨"J".toList, none⟩ "J".toList [] c5Frame []
    (by decide) (by decide!) (by decide)

/-- C6: evaluating a variable reference errs with "undefined variable"
exactly when the Variable Environment lookup returns the NaN sentinel —
whether the name was never assigned or the stored value is legitimately
NaN — and otherwise returns the stored value with the cursor advanced past
the identifier. -/
theorem c6_undefined_is_nan (st : Interp) (p : PState) (name s1 : Str)
    (hp : p.err = none)
    (hid : parse_identifier (skip_ws p.s) = some (name, s1)) :
    ((parse_variable st p).1.err = some (.undefinedVariable name)
       ↔ get_variable st.vars name = .nan)
    ∧ (get_variable st.vars name ≠ .nan →
        parse_variable st p = (⟨s1, none⟩, get_variable st.vars name)) := by
  have hh := parse_identifier_head hid
  unfold parse_variable
  dsimp only
  rw [hh]
  simp only [Bool.not_true, reduceIte, hid]
  by_cases hv : get_variable st.vars name = .nan
  · simp [hv]
  · simp [hv, hp]

theorem c6_witness :
    (parse_variable c6St ⟨"X".toList, none⟩).1.err =
      some (.undefinedVariable "X".toList)
    ∧ (parse_variable c6St ⟨"Y".toList, none⟩).1.err =
      some (.undefinedVariable "Y".toList)
    ∧ parse_variable { c6St with vars := ("Z".toList, .num ⟨7, 1⟩) :: c6St.vars }
        ⟨"Z".toList, none⟩ = (⟨[], none⟩, .num ⟨7, 1⟩) := by
  refine ⟨?_, ?_, ?_⟩
  · exact (c6_undefined_is_nan c6St ⟨"X".toList, none⟩ "X".toList []
      (by decide) (by decide)).1.mpr (by decide!)
  · exact (c6_undefined_is_nan c6St ⟨"Y".toList, none⟩ "Y".toList []
      (by decide) (by decide)).1.mpr (by decide!)
  · exact ((c6_undefined_is_nan ({ c6St with
        vars := ("Z".toList, .num ⟨7, 1⟩) :: c6St.vars }) ⟨"Z".toList, none⟩
      "Z".toList [] (by decide) (by decide)).2 (by decide!)).trans (by decide!)

/-- C7: inside `parse_term`'s operator loop, when a `/` is followed by a
right operand that parses without error, a right operand comparing equal
to 0.0 stops evaluation with the hard error "division by zero" (no value
is produced silently), and any right operand not equal to 0.0 lets the
division proceed with the exact quotient `Val.div v rhs`. -/
theorem c7_division_by_zero (ora : MathOracle) (st : Interp) (fuel : Nat) (v : Val)
    (p p2 : PState) (rest : Str) (rhs : Val)
    (hp : p.err = none)
    (hs : skip_ws p.s = '/' :: rest)
    (hf : parse_factor ora st fuel ⟨rest, none⟩ = (p2, rhs))
    (hok : p2.err = none) :
    (Val.isZero rhs = true →
       term_loop ora st (fuel + 1) v p = (setErr p2 .divisionByZero, .nan))
    ∧ (Val.isZero rhs = false →
       term_loop ora st (fuel + 1) v p = term_loop ora st fuel (Val.div v rhs) p2) := by
  constructor <;> intro hz <;>
    simp [term_loop, hp, hs, headChar, hf, hok, hz]

theorem c7_witness :
    term_loop dOra g2basic_init 6 (.num ⟨1, 1⟩) ⟨"/0".toList, none⟩ =
      (⟨[], some .divisionByZero⟩, .nan)
    ∧ term_loop dOra g2basic_init 6 (.num ⟨1, 1⟩) ⟨"/2".toList, none⟩ =
      term_loop dOra g2basic_init 5 (.num ⟨1, 2⟩) ⟨[], none⟩
    ∧ g2basic_eval dOra 8 g2basic_init "1/0".toList =
      (g2basic_init, ⟨-1, none, some .divisionByZero⟩) := by
  refine ⟨?_, ?_, by decide!⟩
  · exact (c7_division_by_zero dOra g2basic_init 5 (.num ⟨1, 1⟩)
      ⟨"/0".toList, none⟩ ⟨[], none⟩ "0".toList (.num ⟨0, 1⟩)
      (by decide) (by decide) (by decide!) (by decide)).1 (by decide)
  · exact ((c7_division_by_zero dOra g2basic_init 5 (.num ⟨1, 1⟩)
      ⟨"/2".toList, none⟩ ⟨[], none⟩ "2".toList (.num ⟨2, 1⟩)
      (by decide) (by decide) (by decide!) (by decide)).2 (by decide)).trans
      (by decide!)

/-- C8: when the input is the NEW command (and not LIST or RUN, which are
checked first), `handle_basic_command` empties the Program Store and
changes nothing else: variables, functions, both control-flow stacks, the
pending-jump target, the current-line index and the emitted output are
exactly as before. -/
theorem c8_new_clears_only_program (ora : MathOracle) (fuel : Nat) (st : Interp)
    (input : Str)
    (hL : is_keyword (skip_ws input) "LIST" = false)
    (hR : is_keyword (skip_ws input) "RUN" = false)
    (hN : is_keyword (skip_ws input) "NEW" = true) :
    (handle_basic_command ora fuel st input).1.program = []
    ∧ (handle_basic_command ora fuel st input).1.vars = st.vars
    ∧ (handle_basic_command ora fuel st input).1.functions = st.functions
    ∧ (handle_basic_command ora fuel st input).1.forStack = st.forStack
    ∧ (handle_basic_command ora fuel st input).1.gosubStack = st.gosubStack
    ∧ (handle_basic_command ora fuel st input).1.gotoTarget = st.gotoTarget
    ∧ (handle_basic_command ora fuel st input).1.currentLineIndex = st.currentLineIndex
    ∧ (handle_basic_command ora fuel st input).1.out = st.out
    ∧ (handle_basic_command ora fuel st input).2 = true := by
  have h : handle_basic_command ora fuel st input = ({ st with program := [] }, true) := by
    unfold handle_basic_command
    dsimp only
    simp [hL, hR, hN, clear_program, clear_all_program_lines]
  rw [h]
  simp

theorem c8_witness :
    (handle_basic_command dOra 8 c8St "NEW".toList).1.program = []
    ∧ (handle_basic_command dOra 8 c8St "NEW".toList).1.vars = c8St.vars
    ∧ (handle_basic_command dOra 8 c8St "NEW".toList).1.functions = c8St.functions
    ∧ (handle_basic_command dOra 8 c8St "NEW".toList).1.forStack = c8St.forStack
    ∧ (handle_basic_command dOra 8 c8St "NEW".toList).1.gosubStack = c8St.gosubStack
    ∧ (handle_basic_command dOra 8 c8St "NEW".toList).1.gotoTarget = c8St.gotoTarget
    ∧ (handle_basic_command dOra 8 c8St "NEW".toList).1.currentLineIndex
        = c8St.currentLineIndex
    ∧ (handle_basic_command dOra 8 c8St "NEW".toList).1.out = c8St.out
    ∧ (handle_basic_command dOra 8 c8St "NEW".toList).2 = true :=
  c8_new_clears_only_program dOra 8 c8St "NEW".toList
    (by decide) (by decide) (by decide)

/-- C2: in `run_program`'s loop, after a line evaluates successfully
(return code 0) leaving a pending-jump target: target -2 (the
end-of-program sentinel) ends the run cleanly; a target with no stored
line of that number emits "line not found" and aborts at once, executing
no further line; a target whose line exists clears the pending target and
continues at that line's node. -/
theorem c2_jump_resolution (ora : MathOracle) (fuel : Nat) (st st' : Interp)
    (line : PLine) (rest : List PLine) (eo : ParseOut)
    (heval : g2basic_eval ora fuel { st with currentLineIndex := line.1 } line.2
      = (st', eo))
    (hok : eo.code = 0)
    (hne : st'.gotoTarget ≠ -1) :
    (st'.gotoTarget = -2 → run_loop ora (fuel + 1) st (line :: rest) = (st', .done))
    ∧ (st'.gotoTarget ≠ -2 →
        find_line_suffix st'.program st'.gotoTarget = none →
        run_loop ora (fuel + 1) st (line :: rest) =
          ({ st' with out := st'.out ++ [.lineNotFound st'.gotoTarget] }, .errAbort))
    ∧ (∀ suf, st'.gotoTarget ≠ -2 →
        find_line_suffix st'.program st'.gotoTarget = some suf →
        run_loop ora (fuel + 1) st (line :: rest) =
          run_loop ora fuel { st' with gotoTarget := -1 } suf) := by
  refine ⟨fun h2 => ?_, fun h2 hfind => ?_, fun suf h2 hfind => ?_⟩
  · simp [run_loop, heval, hok, hne, h2]
  · simp [run_loop, heval, hok, hne, h2, hfind]
  · simp [run_loop, heval, hok, hne, h2, hfind]

theorem c2_witness :
    run_loop dOra 9 c2St [c2Line] =
      ({ c2St1 with out := c2St1.out ++ [.lineNotFound 50] }, .errAbort) :=
  (c2_jump_resolution dOra 8 c2St c2St1 c2Line [] ⟨0, some (.num ⟨0, 1⟩), none⟩
    (by decide!) (by decide) (by decide)).2.1 (by decide) (by decide!)

/-- C3 counterexample: the input "99999" is not a LIST/RUN/NEW command and
does not begin with a decimal integer in [0, 65535] (its integer is
99999), so the claim's final clause says it is evaluated immediately
through the Dispatcher; but `g2basic_parse` returns -1 without evaluating,
while dispatcher evaluation of the same text succeeds with code 0 and
value 99999. -/
theorem c3_counterexample :
    (g2basic_parse dOra 8 g2basic_init "99999".toList).2.code = -1
    ∧ (g2basic_eval dOra 8 g2basic_init "99999".toList).2.code = 0
    ∧ (g2basic_parse dOra 8 g2basic_init "99999".toList).2
        ≠ (g2basic_eval dOra 8 g2basic_init "99999".toList).2 := by
  decide!

/-- C3 (amended): for input that is not a LIST/RUN/NEW command, if after
leading whitespace it begins with a decimal integer at most 65535 then:
nothing (but whitespace) after the integer deletes that line number from
the Program Store and returns code 1; remaining text is stored under the
line number (replacing any existing line) and returns code 2; in neither
case is the text evaluated (only the program field of the state changes).
An input whose first non-whitespace character is not a digit (rather than
"not beginning with such an integer": an out-of-range integer is rejected
with -1, see C10) is evaluated immediately through the Dispatcher. -/
theorem c3_line_intake (ora : MathOracle) (fuel : Nat) (st : Interp) (input : Str)
    (hcmd : (handle_basic_command ora fuel st input).2 = false) :
    (head_is isDigitC (skip_ws input) = true →
      (read_nat (skip_ws input)).1 ≤ 65535 →
      (skip_ws (read_nat (skip_ws input)).2).isEmpty = true →
      g2basic_parse ora fuel st input =
        ({ st with program := (delete_program_line st.program
             ((read_nat (skip_ws input)).1 : Int)) },
         ⟨1, some (.num (Qv.ofNat (read_nat (skip_ws input)).1)), none⟩))
    ∧ (head_is isDigitC (skip_ws input) = true →
      (read_nat (skip_ws input)).1 ≤ 65535 →
      (skip_ws (read_nat (skip_ws input)).2).isEmpty = false →
      g2basic_parse ora fuel st input =
        ({ st with program := (insert_program_line_sorted st.program
             ((read_nat (skip_ws input)).1 : Int)
             (skip_ws (read_nat (skip_ws input)).2)) },
         ⟨2, some (.num (Qv.ofNat (read_nat (skip_ws input)).1)), none⟩))
    ∧ (head_is isDigitC (skip_ws input) = false →
      g2basic_parse ora fuel st input = g2basic_eval ora fuel st input) := by
  have hst := hbc_false_state ora fuel st input hcmd
  refine ⟨fun hd hle hmt => ?_, fun hd hle hmt => ?_, fun hd => ?_⟩ <;>
    [skip; skip; simp [g2basic_parse, hcmd, hst, hd]] <;>
    have hng : ¬ ((read_nat (skip_ws input)).1 > 65535) := by omega
  · simp [g2basic_parse, hcmd, hst, hd, hng, hmt]
  · simp [g2basic_parse, hcmd, hst, hd, hng, hmt]

theorem c3_witness :
    g2basic_parse dOra 8 c2St "10".toList =
      ({ c2St with program := [] }, ⟨1, some (.num ⟨10, 1⟩), none⟩)
    ∧ g2basic_parse dOra 8 g2basic_init "10 PRINT 1".toList =
      ({ g2basic_init with program := [(10, "PRINT 1".toList)] },
       ⟨2, some (.num ⟨10, 1⟩), none⟩)
    ∧ g2basic_parse dOra 8 g2basic_init "x = 5".toList =
      g2basic_eval dOra 8 g2basic_init "x = 5".toList := by
  refine ⟨?_, ?_, ?_⟩
  · exact ((c3_line_intake dOra 8 c2St "10".toList (by decide)).1
      (by decide) (by decide) (by decide)).trans (by decide!)
  · exact ((c3_line_intake dOra 8 g2basic_init "10 PRINT 1".toList (by decide)).2.1
      (by decide) (by decide) (by decide)).trans (by decide!)
  · exact (c3_line_intake dOra 8 g2basic_init "x = 5".toList (by decide)).2.2 (by decide)

theorem delete_sublist (n : Int) :
    ∀ prog : List PLine, List.Sublist (delete_program_line prog n) prog := by
  intro prog
  induction prog with
  | nil => simp [delete_program_line]
  | cons l rest ih =>
    by_cases h : l.1 = n <;> simp [delete_program_line, h]
    exact ih

theorem delete_sorted (prog : List PLine) (n : Int) (hs : ProgSorted prog) :
    ProgSorted (delete_program_line prog n) :=
  hs.sublist (delete_sublist n prog)

theorem delete_all_ne (n : Int) :
    ∀ prog : List PLine, ProgSorted prog →
      ∀ l ∈ delete_program_line prog n, l.1 ≠ n := by
  intro prog
  induction prog with
  | nil => intro _ l hl; simp [delete_program_line] at hl
  | cons a rest ih =>
    intro hs l hl
    have hs1 := List.pairwise_cons.mp hs
    by_cases h : a.1 = n
    · simp only [delete_program_line, h, if_true, reduceIte] at hl
      have := hs1.1 l hl
      omega
    · simp only [delete_program_line, h, if_false, List.mem_cons, reduceIte] at hl
      rcases hl with rfl | hl
      · exact h
      · exact ih hs1.2 l hl

theorem insert_walk_eq (n : Int) (t : Str) :
    ∀ (l : List PLine) (c : PLine), insert_walk n t c l = c :: ins_pos n t l := by
  intro l
  induction l with
  | nil => intro c; rfl
  | cons x xs ih =>
    intro c
    by_cases h : x.1 < n <;> simp [insert_walk, ins_pos, h, ih]

theorem ins_pos_mem (n : Int) (t : Str) :
    ∀ (l : List PLine) (y : PLine), y ∈ ins_pos n t l → y = (n, t) ∨ y ∈ l := by
  intro l
  induction l with
  | nil => intro y hy; simp [ins_pos] at hy; exact Or.inl hy
  | cons x xs ih =>
    intro y hy
    by_cases h : x.1 < n
    · simp only [ins_pos, h, if_true, List.mem_cons, reduceIte] at hy
      rcases hy with rfl | hy
      · exact Or.inr (by simp)
      · rcases ih y hy with h1 | h2
        · exact Or.inl h1
        · exact Or.inr (by simp [h2])
    · simp only [ins_pos, h, if_false, List.mem_cons, reduceIte] at hy
      rcases hy with rfl | rfl | hy
      · exact Or.inl rfl
      · exact Or.inr (by simp)
      · exact Or.inr (by simp [hy])

theorem ins_pos_sorted (n : Int) (t : Str) :
    ∀ l : List PLine,
      List.Pairwise (fun a b : PLine => a.1 < b.1) l →
      (∀ x ∈ l, x.1 ≠ n) →
      List.Pairwise (fun a b : PLine => a.1 < b.1) (ins_pos n t l) := by
  intro l
  induction l with
  | nil => intro _ _; simp [ins_pos]
  | cons x xs ih =>
    intro hp hne
    have hp1 := List.pairwise_cons.mp hp
    by_cases h : x.1 < n
    · simp only [ins_pos, h, if_true, reduceIte]
      rw [List.pairwise_cons]
      refine ⟨fun b hb => ?_, ih hp1.2 (fun y hy => hne y (by simp [hy]))⟩
      rcases ins_pos_mem n t xs b hb with rfl | hbxs
      · exact h
      · exact hp1.1 b hbxs
    · have hgt : n < x.1 := by
        have := hne x (by simp)
        omega
      simp only [ins_pos, h, if_false, reduceIte]
      rw [List.pairwise_cons]
      refine ⟨fun b hb => ?_, hp⟩
      rcases List.mem_cons.mp hb with rfl | hb
      · exact hgt
      · exact lt_trans hgt (hp1.1 b hb)

theorem insert_sorted (prog : List PLine) (n : Int) (t : Str)
    (hs : ProgSorted prog) : ProgSorted (insert_program_line_sorted prog n t) := by
  have hd := delete_sorted prog n hs
  have hne := delete_all_ne n prog hs
  unfold insert_program_line_sorted
  dsimp only
  cases hdel : delete_program_line prog n with
  | nil => simp
  | cons h rest =>
    rw [hdel] at hd hne
    have hd1 := List.pairwise_cons.mp hd
    by_cases hgt : h.1 > n
    · simp only [hgt, if_true, reduceIte]
      refine List.pairwise_cons.mpr ⟨fun b hb => ?_, hd⟩
      rcases List.mem_cons.mp hb with rfl | hb
      · exact hgt
      · exact lt_trans hgt (hd1.1 b hb)
    · have hlt : h.1 < n := by
        have := hne h (by simp)
        omega
      simp only [hgt, if_false, insert_walk_eq, reduceIte]
      refine List.pairwise_cons.mpr ⟨fun b hb => ?_, ?_⟩
      · rcases ins_pos_mem n t rest b hb with rfl | hbr
        · exact hlt
        · exact hd1.1 b hbr
      · exact ins_pos_sorted n t rest hd1.2 (fun x hx => hne x (by simp [hx]))

theorem find_ins_pos_self (n : Int) (t : Str) :
    ∀ l : List PLine, (∀ x ∈ l, x.1 ≠ n) →
      find_program_line (ins_pos n t l) n = some (n, t) := by
  intro l
  induction l with
  | nil => intro _; simp [ins_pos, find_program_line]
  | cons x xs ih =>
    intro hne
    by_cases h : x.1 < n
    · have hx : x.1 ≠ n := hne x (by simp)
      simp only [ins_pos, h, if_true, find_program_line, hx, if_false, reduceIte]
      exact ih (fun y hy => hne y (by simp [hy]))
    · simp [ins_pos, h, find_program_line]

theorem insert_find_self (prog : List PLine) (n : Int) (t : Str)
    (hs : ProgSorted prog) :
    find_program_line (insert_program_line_sorted prog n t) n = some (n, t) := by
  have hne := delete_all_ne n prog hs
  unfold insert_program_line_sorted
  dsimp only
  cases hdel : delete_program_line prog n with
  | nil => simp [find_program_line]
  | cons h rest =>
    rw [hdel] at hne
    by_cases hgt : h.1 > n
    · simp [hgt, find_program_line]
    · have hx : h.1 ≠ n := hne h (by simp)
      simp only [hgt, if_false, insert_walk_eq, find_program_line, hx, reduceIte]
      exact find_ins_pos_self n t rest (fun y hy => hne y (by simp [hy]))

theorem countP_ins_pos (n : Int) (t : Str) :
    ∀ l : List PLine,
      (ins_pos n t l).countP (fun x => decide (x.1 = n))
        = l.countP (fun x => decide (x.1 = n)) + 1 := by
  intro l
  induction l with
  | nil => simp [ins_pos]
  | cons x xs ih =>
    by_cases h : x.1 < n
    · simp only [ins_pos, h, if_true, List.countP_cons, ih, reduceIte]
      omega
    · simp [ins_pos, h, List.countP_cons]

theorem insert_countP_one (prog : List PLine) (n : Int) (t : Str)
    (hs : ProgSorted prog) :
    (insert_program_line_sorted prog n t).countP (fun x => decide (x.1 = n)) = 1 := by
  have hne := delete_all_ne n prog hs
  have hzero : (delete_program_line prog n).countP (fun x => decide (x.1 = n)) = 0 :=
    List.countP_eq_zero.mpr (by simpa using hne)
  unfold insert_program_line_sorted
  dsimp only
  cases hdel : delete_program_line prog n with
  | nil => simp
  | cons h rest =>
    rw [hdel] at hne hzero
    by_cases hgt : h.1 > n
    · simp only [hgt, if_true, List.countP_cons, hzero, reduceIte]
      simp
    · have hx : h.1 ≠ n := hne h (by simp)
      simp only [List.countP_cons, hx] at hzero
      simp only [hgt, if_false, insert_walk_eq, List.countP_cons, countP_ins_pos,
        hx, reduceIte]
      simp only [decide_eq_true_eq] at hzero ⊢
      simp only [hx, if_false, reduceIte] at hzero ⊢
      omega

theorem find_delete_ne (n m : Int) (hmn : m ≠ n) :
    ∀ prog : List PLine,
      find_program_line (delete_program_line prog n) m = find_program_line prog m := by
  have hnm : n ≠ m := fun hh => hmn hh.symm
  intro prog
  induction prog with
  | nil => rfl
  | cons a rest ih =>
    by_cases h : a.1 = n
    · have ham : a.1 ≠ m := by omega
      simp [delete_program_line, find_program_line, h, ham, hnm]
    · by_cases ham : a.1 = m <;>
        simp [delete_program_line, find_program_line, h, ham, ih, hmn]

theorem find_ins_pos_ne (n m : Int) (t : Str) (hmn : m ≠ n) :
    ∀ l : List PLine,
      find_program_line (ins_pos n t l) m = find_program_line l m := by
  have hnm : n ≠ m := fun hh => hmn hh.symm
  intro l
  induction l with
  | nil => simp [ins_pos, find_program_line, hnm]
  | cons x xs ih =>
    by_cases h : x.1 < n
    · simp only [ins_pos, h, if_true, reduceIte]
      by_cases hxm : x.1 = m <;> simp [find_program_line, hxm, ih]
    · simp [ins_pos, find_program_line, h, hnm]

theorem insert_find_ne (prog : List PLine) (n m : Int) (t : Str) (hmn : m ≠ n) :
    find_program_line (insert_program_line_sorted prog n t) m
      = find_program_line prog m := by
  have hnm : n ≠ m := fun hh => hmn hh.symm
  rw [← find_delete_ne n m hmn prog]
  unfold insert_program_line_sorted
  dsimp only
  cases hdel : delete_program_line prog n with
  | nil => simp [find_program_line, hnm]
  | cons h rest =>
    by_cases hgt : h.1 > n
    · simp [hgt, find_program_line, hnm]
    · simp only [hgt, if_false, insert_walk_eq, reduceIte]
      by_cases hxm : h.1 = m <;>
        simp [find_program_line, hxm, find_ins_pos_ne n m t hmn]

theorem parse_goto_program (st : Interp) (p : PState) :
    ((parse_goto_statement st p).1).program = st.program := by
  unfold parse_goto_statement
  dsimp only
  repeat' split
  all_goals rfl

theorem parse_next_program (st : Interp) (p : PState) :
    ((parse_next_statement st p).1).program = st.program := by
  unfold parse_next_statement
  dsimp only
  repeat' split
  all_goals rfl

theorem parse_gosub_program (st : Interp) (p : PState) :
    ((parse_gosub_statement st p).1).program = st.program := by
  unfold parse_gosub_statement
  dsimp only
  repeat' split
  all_goals rfl

theorem parse_return_program (st : Interp) (p : PState) :
    ((parse_return_statement st p).1).program = st.program := by
  unfold parse_return_statement
  repeat' split
  all_goals rfl

theorem parse_end_program (st : Interp) (p : PState) :
    ((parse_end_statement st p).1).program = st.program := rfl

theorem parse_for_program (ora : MathOracle) (fuel : Nat) (st : Interp) (p : PState) :
    ((parse_for_statement ora fuel st p).1).program = st.program := by
  unfold parse_for_statement
  dsimp only
  repeat' split
  all_goals rfl

theorem print_loop_program (ora : MathOracle) :
    ∀ (fuel : Nat) (st : Interp) (first : Bool) (p : PState),
      ((print_loop ora fuel st first p).1).program = st.program := by
  intro fuel
  induction fuel with
  | zero => intro st first p; rfl
  | succ m ih =>
    intro st first p
    unfold print_loop
    dsimp only
    repeat' split
    all_goals simp [ih]

theorem parse_print_program (ora : MathOracle) (fuel : Nat) (st : Interp) (p : PState) :
    ((parse_print_statement ora fuel st p).1).program = st.program := by
  unfold parse_print_statement
  split
  · rfl
  · exact print_loop_program ora fuel st true p

theorem stmt_program (ora : MathOracle) :
    ∀ fuel : Nat,
      (∀ st p, ((parse_statement ora fuel st p).1).program = st.program)
      ∧ (∀ st p, ((parse_if_statement ora fuel st p).1).program = st.program) := by
  intro fuel
  induction fuel with
  | zero => exact ⟨fun st p => rfl, fun st p => rfl⟩
  | succ m ih =>
    constructor
    · intro st p
      unfold parse_statement
      dsimp only
      by_cases h1 : is_keyword (skip_ws p.s) "PRINT" = true
      · rw [if_pos h1]; exact parse_print_program ora m st _
      rw [if_neg h1]
      by_cases h2 : is_keyword (skip_ws p.s) "GOTO" = true
      · rw [if_pos h2]; exact parse_goto_program st _
      rw [if_neg h2]
      by_cases h3 : is_keyword (skip_ws p.s) "IF" = true
      · rw [if_pos h3]; exact ih.2 st _
      rw [if_neg h3]
      by_cases h4 : is_keyword (skip_ws p.s) "FOR" = true
      · rw [if_pos h4]; exact parse_for_program ora m st _
      rw [if_neg h4]
      by_cases h5 : is_keyword (skip_ws p.s) "NEXT" = true
      · rw [if_pos h5]; exact parse_next_program st _
      rw [if_neg h5]
      by_cases h6 : is_keyword (skip_ws p.s) "GOSUB" = true
      · rw [if_pos h6]; exact parse_gosub_program st _
      rw [if_neg h6]
      by_cases h7 : is_keyword (skip_ws p.s) "RETURN" = true
      · rw [if_pos h7]; exact parse_return_program st _
      rw [if_neg h7]
      by_cases h8 : is_keyword (skip_ws p.s) "END" = true
      · rw [if_pos h8]; exact parse_end_program st _
      rw [if_neg h8]
      by_cases h9 : head_is isAlphaUnd (skip_ws p.s) = true
      · rw [if_pos h9]
        cases hid : parse_identifier (skip_ws p.s) with
        | none => rfl
        | some pr =>
          obtain ⟨name, s1⟩ := pr
          dsimp only
          repeat' split
          all_goals rfl
      rw [if_neg h9]
    · intro st p
      unfold parse_if_statement
      dsimp only
      by_cases hc : (parse_comparison ora st m p).1.err.isSome = true
      · rw [if_pos hc]
      rw [if_neg hc]
      repeat' split
      all_goals first
        | rfl
        | exact ih.1 st _

theorem g2basic_eval_program (ora : MathOracle) (fuel : Nat) (st : Interp) (text : Str) :
    ((g2basic_eval ora fuel st text).1).program = st.program := by
  unfold g2basic_eval
  dsimp only
  repeat' split
  all_goals simp [(stmt_program ora fuel).1]

theorem run_loop_program (ora : MathOracle) :
    ∀ (fuel : Nat) (st : Interp) (cur : List PLine),
      ((run_loop ora fuel st cur).1).program = st.program := by
  intro fuel
  induction fuel with
  | zero => intro st cur; rfl
  | succ m ih =>
    intro st cur
    cases cur with
    | nil => rfl
    | cons line rest =>
      unfold run_loop
      dsimp only
      repeat' split
      all_goals simp [g2basic_eval_program, ih]

theorem run_program_program (ora : MathOracle) (fuel : Nat) (st : Interp) :
    ((run_program ora fuel st).1).program = st.program := by
  unfold run_program
  dsimp only
  simp [run_loop_program]

theorem hbc_sorted (ora : MathOracle) (fuel : Nat) (st : Interp) (input : Str)
    (hs : ProgSorted st.program) :
    ProgSorted ((handle_basic_command ora fuel st input).1).program := by
  unfold handle_basic_command
  dsimp only
  repeat' split
  · simpa [list_program] using hs
  · rw [run_program_program]; exact hs
  · simp [clear_program, clear_all_program_lines]
  · exact hs

theorem parse_preserves_sorted (ora : MathOracle) (fuel : Nat) (st : Interp)
    (input : Str) (hs : ProgSorted st.program) :
    ProgSorted ((g2basic_parse ora fuel st input).1).program := by
  have hbs := hbc_sorted ora fuel st input hs
  unfold g2basic_parse
  dsimp only
  repeat' split
  · exact hbs
  · exact hbs
  · exact delete_sorted _ _ hbs
  · exact insert_sorted _ _ _ hbs
  · rw [g2basic_eval_program]; exact hbs

theorem submit_all_sorted (ora : MathOracle) (fuel : Nat) :
    ∀ (inputs : List Str) (st : Interp), ProgSorted st.program →
      ProgSorted (submit_all ora fuel st inputs).program := by
  intro inputs
  induction inputs with
  | nil => intro st hs; exact hs
  | cons i rest ih =>
    intro st hs
    unfold submit_all
    simp only [List.foldl_cons]
    exact ih _ (parse_preserves_sorted ora fuel st i hs)

/-- C4: starting from any state whose Program Store is strictly ascending
(e.g. the freshly initialized one), any sequence of `g2basic_parse` calls
leaves the store strictly ascending by line number (hence duplicate-free);
moreover storing a line number that is already present replaces that
line's text in place: the stored entry for the number is the new text,
exactly one entry for the number exists, and every other line number's
entry is untouched. -/
theorem c4_program_store_invariant (ora : MathOracle) (fuel : Nat) (st : Interp)
    (inputs : List Str) (hs : ProgSorted st.program) :
    ProgSorted (submit_all ora fuel st inputs).program
    ∧ ∀ (prog : List PLine) (n : Int) (t : Str), ProgSorted prog →
        ProgSorted (insert_program_line_sorted prog n t)
        ∧ find_program_line (insert_program_line_sorted prog n t) n = some (n, t)
        ∧ (insert_program_line_sorted prog n t).countP (fun l => decide (l.1 = n)) = 1
        ∧ ∀ m : Int, m ≠ n →
            find_program_line (insert_program_line_sorted prog n t) m
              = find_program_line prog m := by
  refine ⟨submit_all_sorted ora fuel inputs st hs, fun prog n t hp => ?_⟩
  exact ⟨insert_sorted prog n t hp, insert_find_self prog n t hp,
    insert_countP_one prog n t hp, fun m hm => insert_find_ne prog n m t hm⟩

theorem c4_witness :
    ProgSorted (submit_all dOra 8 g2basic_init
      ["10 A = 1".toList, "5 B = 2".toList, "10 C = 3".toList]).program
    ∧ find_program_line
        (insert_program_line_sorted [((10 : Int), "A".toList)] 10 "C".toList) 10
        = some (10, "C".toList) := by
  refine ⟨(c4_program_store_invariant dOra 8 g2basic_init
    ["10 A = 1".toList, "5 B = 2".toList, "10 C = 3".toList] (by decide)).1, ?_⟩
  exact ((c4_program_store_invariant dOra 8 g2basic_init [] (by decide)).2
    [((10 : Int), "A".toList)] 10 "C".toList (by decide)).2.1
